import Mathlib

/-!
Verification of the migration subsystem and SQL-building layer of the
turso-orm repository (crate `libsql_orm`).

The embedding is shallow:

* `LibsqlValue` mirrors the driver value union of `src/compat.rs`
  (`Null / Integer / Real / Text / Blob`).
* `Migration`, `MigrationManager` operations and `MigrationBuilder` are
  translated from `src/migrations.rs`.  `chrono::DateTime<Utc>` values are
  modelled by their RFC 3339 text, and `chrono`'s RFC 3339 parser (external
  library code) is a parameter `parse : String → Option String` of the read
  path; `Utc::now()` and `uuid::Uuid::new_v4()` are modelled as explicit
  inputs (`now`, `id`).
* The external driver (§6 of the spec) is modelled by `dbExec`: a statement
  either fails according to a failure oracle `f : Stmt → Option Error`, or
  is interpreted by `applyStmt`, a model backend that interprets exactly the
  statements this layer issues (BEGIN/COMMIT as no-ops, the tracking-table
  INSERT honouring the `id TEXT PRIMARY KEY` constraint of the schema in
  §6, the tracking-table DELETE, and any other SQL as an opaque update of an
  abstract schema component `σ`).  Every migration-manager operation returns
  the ordered trace of statements it issued alongside its result.
* `Database::new_connect` of `src/database.rs` has three `cfg`-selected
  bodies; `BuildConfig` enumerates them and `new_connect` reproduces each
  body, with the Rust `panic!` made visible as the `ConnectOutcome.panicked`
  constructor.
* The Filter/SqlBuilder layer is not part of the source tree (only the spec
  describes it); its definitions below are modelled from the spec and say so
  in their doc comments.
-/

namespace LibsqlOrm

/-- Driver value union, from `LibsqlValue` in `src/compat.rs`
(`Null / Integer(i64) / Real(f64) / Text(String) / Blob(Vec<u8>)`).
`f64` is modelled by `Float`; no claim inspects a `Real` payload. -/
inductive LibsqlValue where
  | Null : LibsqlValue
  | Integer (i : Int) : LibsqlValue
  | Real (f : Float) : LibsqlValue
  | Text (s : String) : LibsqlValue
  | Blob (b : List Nat) : LibsqlValue

/-- Function `text_value` from `src/compat.rs`. -/
def text_value (s : String) : LibsqlValue := LibsqlValue.Text s

/-- Function `integer_value` from `src/compat.rs`. -/
def integer_value (i : Int) : LibsqlValue := LibsqlValue.Integer i

/-- Error type of the crate (`src/error.rs` is not in the tree; the two
variants used by `src/migrations.rs` and `src/compat.rs` are declared). -/
inductive Error where
  | DatabaseError (msg : String) : Error
  | Generic (msg : String) : Error

/-- One statement handed to the driver: SQL text plus ordered parameters,
as in `Database::execute(sql, params)` of `src/database.rs`. -/
structure Stmt where
  sql : String
  params : List LibsqlValue

/-- A raw row of the `migrations` tracking table, per the schema owned by
`MigrationManager::init` (`id/name/sql/created_at` TEXT NOT NULL,
`executed_at` TEXT nullable). -/
structure Row where
  id : String
  name : String
  sql : String
  created_at : String
  executed_at : Option String

/-- Backend state: the tracking table plus an abstract schema component `σ`
standing for everything outside the tracking table. -/
structure DbState (σ : Type) where
  table : List Row
  schema : σ

/-- Struct `Migration` from `src/migrations.rs`; timestamps modelled as their
RFC 3339 text. -/
structure Migration where
  id : String
  name : String
  sql : String
  created_at : String
  executed_at : Option String

def beginSql : String := "BEGIN"

def commitSql : String := "COMMIT"

/-- The INSERT text of `execute_migration` (raw string literal in
`src/migrations.rs`, whitespace included). -/
def insertSql : String :=
  "\n            INSERT INTO migrations (id, name, sql, created_at, executed_at)\n            VALUES (?, ?, ?, ?, ?)\n        "

/-- The DELETE text of `rollback_migration`. -/
def deleteSql : String := "DELETE FROM migrations WHERE id = ?"

/-- Model backend (§6 external driver): interprets the statements this layer
issues.  BEGIN/COMMIT are no-ops; the tracking INSERT enforces the
`id TEXT PRIMARY KEY` constraint; the tracking DELETE removes matching rows
and reports the affected count; any other SQL text updates only the abstract
schema via `applySql`. -/
def applyStmt (applySql : σ → String → σ) (st : DbState σ) (stmt : Stmt) :
    Except Error (DbState σ × Nat) :=
  if stmt.sql = beginSql ∨ stmt.sql = commitSql then
    .ok (st, 0)
  else if stmt.sql = insertSql then
    match stmt.params with
    | [LibsqlValue.Text i, LibsqlValue.Text n, LibsqlValue.Text s,
       LibsqlValue.Text c, LibsqlValue.Text e] =>
        if st.table.any (fun r => decide (r.id = i)) then
          .error (Error.DatabaseError "UNIQUE constraint failed: migrations.id")
        else
          .ok ({ st with table := st.table ++ [⟨i, n, s, c, some e⟩] }, 1)
    | _ => .error (Error.DatabaseError "parameter count mismatch")
  else if stmt.sql = deleteSql then
    match stmt.params with
    | [LibsqlValue.Text i] =>
        .ok ({ st with table := st.table.filter (fun r => decide (r.id ≠ i)) },
             (st.table.filter (fun r => decide (r.id = i))).length)
    | _ => .error (Error.DatabaseError "parameter count mismatch")
  else
    .ok ({ st with schema := applySql st.schema stmt.sql }, 0)

/-- One `Database::execute` call: the failure oracle `f` may fail the
statement (driver/backend rejection); otherwise the model backend applies
it. -/
def dbExec (f : Stmt → Option Error) (applySql : σ → String → σ)
    (st : DbState σ) (stmt : Stmt) : Except Error (DbState σ × Nat) :=
  match f stmt with
  | some e => .error e
  | none => applyStmt applySql st stmt

/-- The tracking INSERT statement of `execute_migration`, binding
`m.id, m.name, m.sql, m.created_at.to_rfc3339(), Utc::now().to_rfc3339()`
in that order (`now` models `Utc::now()`). -/
def insertStmt (m : Migration) (now : String) : Stmt :=
  ⟨insertSql,
   [text_value m.id, text_value m.name, text_value m.sql,
    text_value m.created_at, text_value now]⟩

/-- The four statements `execute_migration` issues on its success path. -/
def migrationStmts (m : Migration) (now : String) : List Stmt :=
  [⟨beginSql, []⟩, ⟨m.sql, []⟩, insertStmt m now, ⟨commitSql, []⟩]

/-- Method `MigrationManager::execute_migration` from `src/migrations.rs`:
BEGIN; the migration SQL; the tracking INSERT; COMMIT — each via
`self.db.execute(..) .await?`, so the first failure returns immediately.
The returned list is the ordered trace of statements issued. -/
def execute_migration (f : Stmt → Option Error) (applySql : σ → String → σ)
    (now : String) (st : DbState σ) (m : Migration) :
    List Stmt × Except Error (DbState σ) :=
  let s1 : Stmt := ⟨beginSql, []⟩
  match dbExec f applySql st s1 with
  | .error e => ([s1], .error e)
  | .ok (st1, _) =>
    let s2 : Stmt := ⟨m.sql, []⟩
    match dbExec f applySql st1 s2 with
    | .error e => ([s1, s2], .error e)
    | .ok (st2, _) =>
      let s3 := insertStmt m now
      match dbExec f applySql st2 s3 with
      | .error e => ([s1, s2, s3], .error e)
      | .ok (st3, _) =>
        let s4 : Stmt := ⟨commitSql, []⟩
        match dbExec f applySql st3 s4 with
        | .error e => ([s1, s2, s3, s4], .error e)
        | .ok (st4, _) => ([s1, s2, s3, s4], .ok st4)

/-- Method `MigrationManager::rollback_migration` from `src/migrations.rs`: a
single `DELETE FROM migrations WHERE id = ?` with the id as its only
parameter. -/
def rollback_migration (f : Stmt → Option Error) (applySql : σ → String → σ)
    (st : DbState σ) (migration_id : String) :
    List Stmt × Except Error (DbState σ) :=
  let s : Stmt := ⟨deleteSql, [text_value migration_id]⟩
  match dbExec f applySql st s with
  | .error e => ([s], .error e)
  | .ok (st1, _) => ([s], .ok st1)

/-- Method `MigrationManager::run_migrations` from `src/migrations.rs`: iterate the
given list, `continue` on entries whose own `executed_at` is `Some`, and
`execute_migration(..).await?` the rest. -/
def run_migrations (f : Stmt → Option Error) (applySql : σ → String → σ)
    (now : String) (st : DbState σ) :
    List Migration → List Stmt × Except Error (DbState σ)
  | [] => ([], .ok st)
  | m :: ms =>
    if m.executed_at.isSome then run_migrations f applySql now st ms
    else
      match execute_migration f applySql now st m with
      | (tr, .error e) => (tr, .error e)
      | (tr, .ok st1) =>
        let rest := run_migrations f applySql now st1 ms
        (tr ++ rest.1, rest.2)

/-- Helper: run `execute_migration` on every entry of a list, with no
skipping. `run_migrations` is proved equal to this on the sublist of
entries whose `executed_at` is `None`. -/
def execute_each (f : Stmt → Option Error) (applySql : σ → String → σ)
    (now : String) (st : DbState σ) :
    List Migration → List Stmt × Except Error (DbState σ)
  | [] => ([], .ok st)
  | m :: ms =>
    match execute_migration f applySql now st m with
    | (tr, .error e) => (tr, .error e)
    | (tr, .ok st1) =>
      let rest := execute_each f applySql now st1 ms
      (tr ++ rest.1, rest.2)

/-- Parse one tracking row into a `Migration`, as the loop body of
`get_migrations` does: `created_at` must parse (else
`Error::DatabaseError "Invalid datetime format"`), and a non-null
`executed_at` must parse likewise. -/
def parseRow (parse : String → Option String) (r : Row) :
    Except Error Migration :=
  match parse r.created_at with
  | none => .error (Error.DatabaseError "Invalid datetime format")
  | some c =>
    match r.executed_at with
    | none => .ok ⟨r.id, r.name, r.sql, c, none⟩
    | some s =>
      match parse s with
      | none => .error (Error.DatabaseError "Invalid datetime format")
      | some e => .ok ⟨r.id, r.name, r.sql, c, some e⟩

/-- The row-cursor loop of `get_migrations`: rows parsed front to back, the
first parse failure aborting the whole read. -/
def parseRows (parse : String → Option String) :
    List Row → Except Error (List Migration)
  | [] => .ok []
  | r :: rs =>
    match parseRow parse r with
    | .error e => .error e
    | .ok m =>
      match parseRows parse rs with
      | .error e => .error e
      | .ok ms => .ok (m :: ms)

/-- Lexicographic text comparison (binary collation, as the backend
applies to TEXT columns). -/
def charListLe : List Char → List Char → Bool
  | [], _ => true
  | _ :: _, [] => false
  | a :: as, b :: bs =>
    if a.toNat < b.toNat then true
    else if b.toNat < a.toNat then false
    else charListLe as bs

/-- The `ORDER BY created_at` of the `get_migrations` query, modelled as a
stable sort on the stored text under the binary collation. -/
def sortRows (rows : List Row) : List Row :=
  rows.insertionSort
    (fun a b => charListLe a.created_at.data b.created_at.data = true)

/-- Method `MigrationManager::get_migrations` from `src/migrations.rs` (the
`feature = "libsql"` build, the one with real behaviour): select all
tracking rows ordered by `created_at` and parse their timestamps, a
malformed timestamp failing the whole read. -/
def get_migrations (parse : String → Option String) (st : DbState σ) :
    Except Error (List Migration) :=
  parseRows parse (sortRows st.table)

/-- Method `MigrationManager::get_pending_migrations`: filter
`get_migrations` by `executed_at.is_none()`. -/
def get_pending_migrations (parse : String → Option String) (st : DbState σ) :
    Except Error (List Migration) :=
  match get_migrations parse st with
  | .error e => .error e
  | .ok ms => .ok (ms.filter (fun m => m.executed_at.isNone))

/-- Method `MigrationManager::get_executed_migrations`: filter
`get_migrations` by `executed_at.is_some()`. -/
def get_executed_migrations (parse : String → Option String) (st : DbState σ) :
    Except Error (List Migration) :=
  match get_migrations parse st with
  | .error e => .error e
  | .ok ms => .ok (ms.filter (fun m => m.executed_at.isSome))

/-- Struct `MigrationBuilder` from `src/migrations.rs`: name, up SQL, optional
down SQL. -/
structure MigrationBuilder where
  name : String
  up_sql : String
  down_sql : Option String

/-- Method `MigrationBuilder::new`. -/
def MigrationBuilder.new (name : String) : MigrationBuilder :=
  ⟨name, "", none⟩

/-- Method `MigrationBuilder::up`. -/
def MigrationBuilder.up (b : MigrationBuilder) (sql : String) :
    MigrationBuilder :=
  { b with up_sql := sql }

/-- Method `MigrationBuilder::down`. -/
def MigrationBuilder.down (b : MigrationBuilder) (sql : String) :
    MigrationBuilder :=
  { b with down_sql := some sql }

/-- Method `MigrationBuilder::build`: the `Migration` takes `self.up_sql` as its
`sql`, a fresh uuid (parameter `id`), `Utc::now()` (parameter `now`) as
`created_at`, and `executed_at: None`.  `self.down_sql` is not used. -/
def MigrationBuilder.build (b : MigrationBuilder) (id : String)
    (now : String) : Migration :=
  ⟨id, b.name, b.up_sql, now, none⟩

/-- The three `cfg`-selected bodies of `Database::new_connect` in
`src/database.rs`: wasm32 with the libsql feature, native with the libsql
feature, and wasm32 without it. -/
inductive BuildConfig where
  | wasmLibsql : BuildConfig
  | nativeLibsql : BuildConfig
  | wasmNoLibsql : BuildConfig

/-- Outcome of a `new_connect` call, with a Rust `panic!` made visible as
its own constructor. -/
inductive ConnectOutcome where
  | ok : ConnectOutcome
  | err (e : Error) : ConnectOutcome
  | panicked (msg : String) : ConnectOutcome

/-- Method `Database::new_connect` from `src/database.rs`.  On wasm32 with the
libsql feature it opens a Cloudflare connection and probes it with
`SELECT 1` (`probe` models that round trip), mapping the probe result to
Ok/Err.  On native builds with the libsql feature the body is
`panic!("Native database connections not supported ...")`.  On wasm32
without the feature it returns the stub `Ok(Database)`. -/
def new_connect (cfg : BuildConfig) (probe : String → String → Except Error Unit)
    (url token : String) : ConnectOutcome :=
  match cfg with
  | .wasmLibsql =>
    match probe url token with
    | .ok _ => .ok
    | .error e => .err e
  | .nativeLibsql =>
    .panicked "Native database connections not supported in this build configuration. Use the libsql_default feature for native support."
  | .wasmNoLibsql => .ok

/-- Modelled from the spec: the comparison operator of a leaf `Filter`
(§4.1 table), operands attached per the arity column (`In` takes a list,
`IsNull`/`IsNotNull` take none, the rest exactly one).  The
Filter/SqlBuilder source file is not in the tree; only the spec describes
it. -/
inductive FilterCmp where
  | Eq (v : LibsqlValue) : FilterCmp
  | Ne (v : LibsqlValue) : FilterCmp
  | Gt (v : LibsqlValue) : FilterCmp
  | Gte (v : LibsqlValue) : FilterCmp
  | Lt (v : LibsqlValue) : FilterCmp
  | Lte (v : LibsqlValue) : FilterCmp
  | Like (v : LibsqlValue) : FilterCmp
  | In (vs : List LibsqlValue) : FilterCmp
  | IsNull : FilterCmp
  | IsNotNull : FilterCmp

/-- Modelled from the spec: a leaf comparison — column name, operator and
operand(s) (§3 data model, §4.1). -/
structure Filter where
  column : String
  cmp : FilterCmp

/-- Modelled from the spec: the recursive predicate tree
`Single(Filter) | And(list) | Or(list)` (§3). -/
inductive FilterOperator where
  | Single (f : Filter) : FilterOperator
  | And (children : List FilterOperator) : FilterOperator
  | Or (children : List FilterOperator) : FilterOperator

/-- Placeholder list `?, ?, …` for an `In` fragment of `n` operands. -/
def placeholders : Nat → String
  | 0 => ""
  | 1 => "?"
  | n + 2 => "?, " ++ placeholders (n + 1)

/-- Modelled from the spec: leaf fragment table of §4.1.  An empty `In`
list renders a fragment that matches no rows (chosen here as `1 = 0`). -/
def renderLeaf (f : Filter) : String × List LibsqlValue :=
  match f.cmp with
  | .Eq v => (f.column ++ " = ?", [v])
  | .Ne v => (f.column ++ " != ?", [v])
  | .Gt v => (f.column ++ " > ?", [v])
  | .Gte v => (f.column ++ " >= ?", [v])
  | .Lt v => (f.column ++ " < ?", [v])
  | .Lte v => (f.column ++ " <= ?", [v])
  | .Like v => (f.column ++ " LIKE ?", [v])
  | .In [] => ("1 = 0", [])
  | .In (v :: vs) =>
      (f.column ++ " IN (" ++ placeholders (v :: vs).length ++ ")", v :: vs)
  | .IsNull => (f.column ++ " IS NULL", [])
  | .IsNotNull => (f.column ++ " IS NOT NULL", [])

/-- Join already-parenthesized child fragments with a connective. -/
def joinFrags (sep : String) : List String → String
  | [] => ""
  | [s] => "(" ++ s ++ ")"
  | s :: rest => "(" ++ s ++ ")" ++ sep ++ joinFrags sep rest

mutual

/-- Modelled from the spec: `SqlBuilder::render` (§4.1) — a fragment plus
the ordered parameter list; composite nodes emit `(child1) AND (child2) …`
(resp. `OR`), parameter lists concatenated in depth-first left-to-right
traversal order.  `And []` renders always-true (`1 = 1`), `Or []`
always-false (`1 = 0`), per the §3 invariant that these be fixed. -/
def render : FilterOperator → String × List LibsqlValue
  | .Single f => renderLeaf f
  | .And [] => ("1 = 1", [])
  | .And (c :: cs) =>
      let rs := renderList (c :: cs)
      (joinFrags " AND " (rs.map Prod.fst), (rs.map Prod.snd).flatten)
  | .Or [] => ("1 = 0", [])
  | .Or (c :: cs) =>
      let rs := renderList (c :: cs)
      (joinFrags " OR " (rs.map Prod.fst), (rs.map Prod.snd).flatten)

/-- Render every child of a composite node, left to right. -/
def renderList : List FilterOperator → List (String × List LibsqlValue)
  | [] => []
  | t :: ts => render t :: renderList ts

end

/-- Number of `?` characters in a character list. -/
def charCount (l : List Char) : Nat :=
  (l.filter (fun c => decide (c = '?'))).length

/-- Number of `?` placeholders in a fragment. -/
def countPlaceholders (s : String) : Nat :=
  charCount s.data

/-- Display of a bound value, used only to state the placeholder/parameter
alignment property (a `Real` payload is shown opaquely; no claim inspects
one). -/
def showValue : LibsqlValue → String
  | .Null => "NULL"
  | .Integer i => toString i
  | .Real _ => "REAL"
  | .Text s => s
  | .Blob b => toString b

/-- Substitute the parameters into the fragment: each `?`, scanned left to
right, is replaced by the display of the next unconsumed parameter
(substituted text is emitted, not rescanned). -/
def subChars : List Char → List LibsqlValue → List Char
  | [], _ => []
  | c :: cs, ps =>
    if c = '?' then
      match ps with
      | [] => c :: subChars cs []
      | p :: rest => (showValue p).data ++ subChars cs rest
    else c :: subChars cs ps

/-- Lift of `subChars` to strings. -/
def substitute (s : String) (ps : List LibsqlValue) : String :=
  String.mk (subChars s.data ps)

/-- Inline display of an operand list, comma separated, mirroring the
placeholder list of an `In` fragment. -/
def inlineList : List LibsqlValue → String
  | [] => ""
  | [v] => showValue v
  | v :: w :: rest => showValue v ++ ", " ++ inlineList (w :: rest)

/-- Leaf fragment with the operand displayed in place of its
placeholder — the intended reading of each row of the §4.1 table. -/
def renderInlineLeaf (f : Filter) : String :=
  match f.cmp with
  | .Eq v => f.column ++ " = " ++ showValue v
  | .Ne v => f.column ++ " != " ++ showValue v
  | .Gt v => f.column ++ " > " ++ showValue v
  | .Gte v => f.column ++ " >= " ++ showValue v
  | .Lt v => f.column ++ " < " ++ showValue v
  | .Lte v => f.column ++ " <= " ++ showValue v
  | .Like v => f.column ++ " LIKE " ++ showValue v
  | .In [] => "1 = 0"
  | .In (v :: vs) => f.column ++ " IN (" ++ inlineList (v :: vs) ++ ")"
  | .IsNull => f.column ++ " IS NULL"
  | .IsNotNull => f.column ++ " IS NOT NULL"

mutual

/-- Rendering with every operand displayed at the position of its own
placeholder, composites joined exactly as `render` joins them. -/
def renderInline : FilterOperator → String
  | .Single f => renderInlineLeaf f
  | .And [] => "1 = 1"
  | .And (c :: cs) => joinFrags " AND " (renderInlineList (c :: cs))
  | .Or [] => "1 = 0"
  | .Or (c :: cs) => joinFrags " OR " (renderInlineList (c :: cs))

/-- Inline rendering of every child, left to right. -/
def renderInlineList : List FilterOperator → List String
  | [] => []
  | t :: ts => renderInline t :: renderInlineList ts

end

mutual

/-- Trusted-identifier condition of §4.1: no column name in the tree
contains a placeholder character. -/
def columnsOk : FilterOperator → Bool
  | .Single f => !(f.column.data.contains '?')
  | .And l => columnsOkList l
  | .Or l => columnsOkList l

/-- Conjunction of `columnsOk` over every tree of a list. -/
def columnsOkList : List FilterOperator → Bool
  | [] => true
  | t :: ts => columnsOk t && columnsOkList ts

end

/-! ## Helper lemmas about the model backend -/

theorem applyStmt_begin (a : σ → String → σ) (st : DbState σ) :
    applyStmt a st ⟨beginSql, []⟩ = .ok (st, 0) := by
  simp [applyStmt]

theorem applyStmt_commit (a : σ → String → σ) (st : DbState σ) :
    applyStmt a st ⟨commitSql, []⟩ = .ok (st, 0) := by
  simp [applyStmt, beginSql, commitSql]

theorem applyStmt_delete (a : σ → String → σ) (st : DbState σ) (i : String) :
    applyStmt a st ⟨deleteSql, [text_value i]⟩ =
      .ok ({ st with table := st.table.filter (fun r => decide (r.id ≠ i)) },
           (st.table.filter (fun r => decide (r.id = i))).length) := by
  simp [applyStmt, deleteSql, beginSql, commitSql, insertSql, text_value]

theorem applyStmt_insert (a : σ → String → σ) (st : DbState σ)
    (m : Migration) (now : String) :
    applyStmt a st (insertStmt m now) =
      if st.table.any (fun r => decide (r.id = m.id)) then
        .error (Error.DatabaseError "UNIQUE constraint failed: migrations.id")
      else
        .ok ({ st with table :=
                st.table ++ [⟨m.id, m.name, m.sql, m.created_at, some now⟩] },
             1) := by
  simp [applyStmt, insertStmt, insertSql, beginSql, commitSql, text_value]

/-- A statement with no parameters never changes the tracking table when it
succeeds (BEGIN/COMMIT are no-ops, the tracking INSERT and DELETE reject an
empty parameter list, anything else touches only the schema). -/
theorem applyStmt_nil_params_table (a : σ → String → σ) (st st2 : DbState σ)
    (s : String) (n : Nat) (h : applyStmt a st ⟨s, []⟩ = .ok (st2, n)) :
    st2.table = st.table := by
  unfold applyStmt at h
  split at h
  · simp at h
    simp [← h.1]
  · split at h
    · exact absurd h (by simp)
    · split at h
      · exact absurd h (by simp)
      · simp at h
        simp [← h.1]

theorem dbExec_ok (f : Stmt → Option Error) (a : σ → String → σ)
    (st : DbState σ) (s : Stmt) (p : DbState σ × Nat)
    (h : dbExec f a st s = .ok p) : applyStmt a st s = .ok p := by
  unfold dbExec at h
  split at h
  · exact absurd h (by simp)
  · exact h

/-- None of the four statements of `execute_migration` is a ROLLBACK,
provided the caller's migration SQL is not itself the text `ROLLBACK`. -/
theorem migrationStmts_no_rollback (m : Migration) (now : String)
    (hm : m.sql ≠ "ROLLBACK") :
    ∀ s ∈ migrationStmts m now, s.sql ≠ "ROLLBACK" := by
  intro s hs
  simp only [migrationStmts, insertStmt, List.mem_cons, List.mem_singleton,
    List.not_mem_nil, or_false] at hs
  rcases hs with h | h | h | h <;> subst h <;>
    simp [beginSql, commitSql, insertSql]
  exact hm

/-! ## Claim C1 -/

/-- C1: a successful `MigrationManager::execute_migration(&m)` issues
exactly four driver statements in order — `BEGIN`, `m.sql`, the tracking
INSERT binding `m.id, m.name, m.sql, m.created_at` and a fresh
`executed_at` timestamp, `COMMIT` — and nothing else. -/
theorem C1_execute_migration_success_trace (f : Stmt → Option Error)
    (a : σ → String → σ) (now : String) (st : DbState σ) (m : Migration)
    (tr : List Stmt) (st' : DbState σ)
    (h : execute_migration f a now st m = (tr, .ok st')) :
    tr = migrationStmts m now := by
  unfold execute_migration at h
  dsimp only at h
  repeat' split at h
  all_goals injection h with h1 h2
  · exact absurd h2 (by simp)
  · exact absurd h2 (by simp)
  · exact absurd h2 (by simp)
  · exact absurd h2 (by simp)
  · rw [← h1]; rfl

/-- Witness for C1 at a concrete migration, with an always-succeeding
driver. -/
theorem C1_execute_migration_success_trace_witness :
    execute_migration (fun _ => none) (fun (n : Nat) _ => n)
        "2024-01-02T00:00:00+00:00" ⟨[], 0⟩
        ⟨"id1", "init_tables", "CREATE TABLE t (x)",
         "2024-01-01T00:00:00+00:00", none⟩ =
      (migrationStmts
        ⟨"id1", "init_tables", "CREATE TABLE t (x)",
         "2024-01-01T00:00:00+00:00", none⟩ "2024-01-02T00:00:00+00:00",
       .ok ⟨[⟨"id1", "init_tables", "CREATE TABLE t (x)",
             "2024-01-01T00:00:00+00:00",
             some "2024-01-02T00:00:00+00:00"⟩], 0⟩) ∧
    migrationStmts
        ⟨"id1", "init_tables", "CREATE TABLE t (x)",
         "2024-01-01T00:00:00+00:00", none⟩ "2024-01-02T00:00:00+00:00" =
      migrationStmts
        ⟨"id1", "init_tables", "CREATE TABLE t (x)",
         "2024-01-01T00:00:00+00:00", none⟩ "2024-01-02T00:00:00+00:00" :=
  ⟨by rfl,
   C1_execute_migration_success_trace (fun _ => none) (fun (n : Nat) _ => n)
     "2024-01-02T00:00:00+00:00" ⟨[], 0⟩
     ⟨"id1", "init_tables", "CREATE TABLE t (x)",
      "2024-01-01T00:00:00+00:00", none⟩ _ _ (by rfl)⟩

/-! ## Claim C3 -/

/-- C3: `rollback_migration(id)` issues exactly one statement — the
tracking-table DELETE with `id` as its single parameter — never any down
SQL; on success the schema outside the tracking table is unchanged and only
rows with the given id leave the tracking table. -/
theorem C3_rollback_single_delete (f : Stmt → Option Error)
    (a : σ → String → σ) (st : DbState σ) (id : String) :
    (rollback_migration f a st id).1 = [⟨deleteSql, [text_value id]⟩] ∧
    ∀ st', (rollback_migration f a st id).2 = .ok st' →
      st'.schema = st.schema ∧
      st'.table = st.table.filter (fun r => decide (r.id ≠ id)) := by
  cases hd : dbExec f a st ⟨deleteSql, [text_value id]⟩ with
  | error e => simp [rollback_migration, hd]
  | ok p =>
    have h2 := dbExec_ok f a st _ p hd
    rw [applyStmt_delete] at h2
    simp only [Except.ok.injEq] at h2
    refine ⟨by simp [rollback_migration, hd], ?_⟩
    intro st' h
    simp only [rollback_migration, hd] at h
    simp only [Except.ok.injEq] at h
    rw [← h, ← h2]
    exact ⟨rfl, rfl⟩

/-- Witness for C3 at a concrete table and id. -/
theorem C3_rollback_single_delete_witness :
    (rollback_migration (fun _ => none) (fun (n : Nat) _ => n)
        ⟨[⟨"a", "na", "sa", "ca", none⟩, ⟨"b", "nb", "sb", "cb", none⟩], 7⟩
        "a").1 = [⟨deleteSql, [text_value "a"]⟩] ∧
    ∀ st', (rollback_migration (fun _ => none) (fun (n : Nat) _ => n)
        ⟨[⟨"a", "na", "sa", "ca", none⟩, ⟨"b", "nb", "sb", "cb", none⟩], 7⟩
        "a").2 = .ok st' →
      st'.schema = 7 ∧
      st'.table = ([⟨"a", "na", "sa", "ca", none⟩,
        ⟨"b", "nb", "sb", "cb", none⟩] : List Row).filter
          (fun r => decide (r.id ≠ "a")) :=
  C3_rollback_single_delete (fun _ => none) (fun (n : Nat) _ => n)
    ⟨[⟨"a", "na", "sa", "ca", none⟩, ⟨"b", "nb", "sb", "cb", none⟩], 7⟩ "a"

/-! ## Claim C4 -/

/-- C4: when any of the four steps of `execute_migration` fails, the error
is returned immediately — the trace is exactly the statements up to and
including the failing one (a nonempty front segment of the four) — and no
ROLLBACK is ever issued (the migration SQL itself not being the text
`ROLLBACK`). -/
theorem C4_execute_migration_failure_no_rollback (f : Stmt → Option Error)
    (a : σ → String → σ) (now : String) (st : DbState σ) (m : Migration)
    (tr : List Stmt) (e : Error)
    (h : execute_migration f a now st m = (tr, .error e)) :
    (∃ k, 1 ≤ k ∧ k ≤ 4 ∧ tr = (migrationStmts m now).take k) ∧
    (m.sql ≠ "ROLLBACK" → ∀ s ∈ tr, s.sql ≠ "ROLLBACK") := by
  have hk : ∃ k, 1 ≤ k ∧ k ≤ 4 ∧ tr = (migrationStmts m now).take k := by
    unfold execute_migration at h
    dsimp only at h
    repeat' split at h
    all_goals injection h with h1 h2
    · exact ⟨1, by omega, by omega, by rw [← h1]; rfl⟩
    · exact ⟨2, by omega, by omega, by rw [← h1]; rfl⟩
    · exact ⟨3, by omega, by omega, by rw [← h1]; rfl⟩
    · exact ⟨4, by omega, by omega, by rw [← h1]; rfl⟩
    · exact absurd h2 (by simp)
  refine ⟨hk, fun hm s hs => ?_⟩
  obtain ⟨k, -, -, htr⟩ := hk
  exact migrationStmts_no_rollback m now hm s
    (List.mem_of_mem_take (htr ▸ hs))

/-- Witness for C4: a driver that rejects COMMIT; all four statements are
issued, the COMMIT error is returned, and no ROLLBACK appears. -/
theorem C4_execute_migration_failure_no_rollback_witness :
    execute_migration
        (fun s => if s.sql = "COMMIT" then some (Error.Generic "boom") else none)
        (fun (n : Nat) _ => n) "2024-01-02T00:00:00+00:00" ⟨[], 0⟩
        ⟨"id1", "init_tables", "CREATE TABLE t (x)",
         "2024-01-01T00:00:00+00:00", none⟩ =
      (migrationStmts
        ⟨"id1", "init_tables", "CREATE TABLE t (x)",
         "2024-01-01T00:00:00+00:00", none⟩ "2024-01-02T00:00:00+00:00",
       .error (Error.Generic "boom")) ∧
    ((∃ k, 1 ≤ k ∧ k ≤ 4 ∧
        migrationStmts
          ⟨"id1", "init_tables", "CREATE TABLE t (x)",
           "2024-01-01T00:00:00+00:00", none⟩ "2024-01-02T00:00:00+00:00" =
        (migrationStmts
          ⟨"id1", "init_tables", "CREATE TABLE t (x)",
           "2024-01-01T00:00:00+00:00", none⟩
          "2024-01-02T00:00:00+00:00").take k) ∧
     ((⟨"id1", "init_tables", "CREATE TABLE t (x)",
        "2024-01-01T00:00:00+00:00", none⟩ : Migration).sql ≠ "ROLLBACK" →
      ∀ s ∈ migrationStmts
          ⟨"id1", "init_tables", "CREATE TABLE t (x)",
           "2024-01-01T00:00:00+00:00", none⟩ "2024-01-02T00:00:00+00:00",
        s.sql ≠ "ROLLBACK")) :=
  ⟨by rfl,
   C4_execute_migration_failure_no_rollback
     (fun s => if s.sql = "COMMIT" then some (Error.Generic "boom") else none)
     (fun (n : Nat) _ => n) "2024-01-02T00:00:00+00:00" ⟨[], 0⟩
     ⟨"id1", "init_tables", "CREATE TABLE t (x)",
      "2024-01-01T00:00:00+00:00", none⟩ _ _ (by rfl)⟩

/-! ## Claim C5 -/

/-- C5: `run_migrations` applies `execute_migration` exactly to the
entries of the given list whose own in-memory `executed_at` is `None`, in
list order — the run is equal to executing, without any skipping, the
filtered list `ms.filter (executed_at.isNone)`, a list computed from the
argument alone and never from the persisted tracking table. -/
theorem C5_run_migrations_filters_pending (f : Stmt → Option Error)
    (a : σ → String → σ) (now : String) (st : DbState σ)
    (ms : List Migration) :
    run_migrations f a now st ms =
      execute_each f a now st
        (ms.filter (fun m => m.executed_at.isNone)) := by
  induction ms generalizing st with
  | nil => rfl
  | cons m rest ih =>
    cases he : m.executed_at with
    | some d =>
      simp [run_migrations, execute_each, he, ih]
    | none =>
      simp only [run_migrations, he, Option.isSome_none, Bool.false_eq_true,
        if_false, List.filter_cons, Option.isNone_none, if_true,
        execute_each]
      rcases hx : execute_migration f a now st m with ⟨tr, res⟩
      cases res with
      | error e => rfl
      | ok st1 => simp [ih]

/-! ## Claim C6 -/

/-- C6: whenever `get_migrations` succeeds with list `L`,
`get_pending_migrations` returns exactly the `executed_at = None` entries
of `L` and `get_executed_migrations` exactly the `executed_at = Some`
entries, each preserving the order of `L` (a sublist of `L`); the two are
disjoint and their union is a permutation of `L`. -/
theorem C6_pending_executed_partition (parse : String → Option String)
    (st : DbState σ) (L : List Migration)
    (h : get_migrations parse st = .ok L) :
    get_pending_migrations parse st =
      .ok (L.filter (fun m => m.executed_at.isNone)) ∧
    get_executed_migrations parse st =
      .ok (L.filter (fun m => m.executed_at.isSome)) ∧
    List.Sublist (L.filter (fun m => m.executed_at.isNone)) L ∧
    List.Sublist (L.filter (fun m => m.executed_at.isSome)) L ∧
    (∀ m, m ∈ L.filter (fun m => m.executed_at.isNone) →
      m ∉ L.filter (fun m => m.executed_at.isSome)) ∧
    List.Perm (L.filter (fun m => m.executed_at.isNone) ++
      L.filter (fun m => m.executed_at.isSome)) L := by
  refine ⟨by simp [get_pending_migrations, h],
    by simp [get_executed_migrations, h],
    List.filter_sublist L, List.filter_sublist L, ?_, ?_⟩
  · intro m hm hm2
    rw [List.mem_filter] at hm hm2
    cases hme : m.executed_at with
    | none => rw [hme] at hm2; exact absurd hm2.2 (by simp)
    | some d => rw [hme] at hm; exact absurd hm.2 (by simp)
  · have hp := List.filter_append_perm
      (fun m => m.executed_at.isNone) L
    have hc : L.filter (fun m => !m.executed_at.isNone) =
        L.filter (fun m => m.executed_at.isSome) := by
      apply List.filter_congr
      intro m _
      exact Option.bnot_isNone m.executed_at
    rw [hc] at hp
    exact hp

/-- Witness for C6 on a two-row table, one row pending and one executed. -/
theorem C6_pending_executed_partition_witness :
    get_migrations (fun s => some s)
      (⟨[⟨"b", "nb", "sb", "c2", some "c3"⟩,
         ⟨"a", "na", "sa", "c1", none⟩], 0⟩ : DbState Nat) =
      .ok [⟨"a", "na", "sa", "c1", none⟩,
           ⟨"b", "nb", "sb", "c2", some "c3"⟩] ∧
    (get_pending_migrations (fun s => some s)
      (⟨[⟨"b", "nb", "sb", "c2", some "c3"⟩,
         ⟨"a", "na", "sa", "c1", none⟩], 0⟩ : DbState Nat) =
      .ok (([⟨"a", "na", "sa", "c1", none⟩,
             ⟨"b", "nb", "sb", "c2", some "c3"⟩] : List Migration).filter
        (fun m => m.executed_at.isNone)) ∧
    get_executed_migrations (fun s => some s)
      (⟨[⟨"b", "nb", "sb", "c2", some "c3"⟩,
         ⟨"a", "na", "sa", "c1", none⟩], 0⟩ : DbState Nat) =
      .ok (([⟨"a", "na", "sa", "c1", none⟩,
             ⟨"b", "nb", "sb", "c2", some "c3"⟩] : List Migration).filter
        (fun m => m.executed_at.isSome)) ∧
    List.Sublist (([⟨"a", "na", "sa", "c1", none⟩,
        ⟨"b", "nb", "sb", "c2", some "c3"⟩] : List Migration).filter
        (fun m => m.executed_at.isNone))
      [⟨"a", "na", "sa", "c1", none⟩, ⟨"b", "nb", "sb", "c2", some "c3"⟩] ∧
    List.Sublist (([⟨"a", "na", "sa", "c1", none⟩,
        ⟨"b", "nb", "sb", "c2", some "c3"⟩] : List Migration).filter
        (fun m => m.executed_at.isSome))
      [⟨"a", "na", "sa", "c1", none⟩, ⟨"b", "nb", "sb", "c2", some "c3"⟩] ∧
    (∀ m, m ∈ (([⟨"a", "na", "sa", "c1", none⟩,
        ⟨"b", "nb", "sb", "c2", some "c3"⟩] : List Migration).filter
        (fun m => m.executed_at.isNone)) →
      m ∉ (([⟨"a", "na", "sa", "c1", none⟩,
        ⟨"b", "nb", "sb", "c2", some "c3"⟩] : List Migration).filter
        (fun m => m.executed_at.isSome))) ∧
    List.Perm ((([⟨"a", "na", "sa", "c1", none⟩,
        ⟨"b", "nb", "sb", "c2", some "c3"⟩] : List Migration).filter
        (fun m => m.executed_at.isNone)) ++
      (([⟨"a", "na", "sa", "c1", none⟩,
        ⟨"b", "nb", "sb", "c2", some "c3"⟩] : List Migration).filter
        (fun m => m.executed_at.isSome)))
      [⟨"a", "na", "sa", "c1", none⟩, ⟨"b", "nb", "sb", "c2", some "c3"⟩]) :=
  ⟨by rfl,
   C6_pending_executed_partition (fun s => some s)
     (⟨[⟨"b", "nb", "sb", "c2", some "c3"⟩,
        ⟨"a", "na", "sa", "c1", none⟩], 0⟩ : DbState Nat)
     [⟨"a", "na", "sa", "c1", none⟩, ⟨"b", "nb", "sb", "c2", some "c3"⟩]
     (by rfl)⟩

/-! ## Helper lemmas for the read path -/

theorem parseRow_ok_fields (parse : String → Option String) (r : Row)
    (mg : Migration) (h : parseRow parse r = .ok mg) :
    mg.id = r.id ∧ mg.executed_at.isSome = r.executed_at.isSome := by
  cases hc : parse r.created_at with
  | none => simp [parseRow, hc] at h
  | some c =>
    cases he : r.executed_at with
    | none =>
      simp only [parseRow, hc, he, Except.ok.injEq] at h
      rw [← h]
      exact ⟨rfl, rfl⟩
    | some s =>
      cases hs : parse s with
      | none => simp [parseRow, hc, he, hs] at h
      | some d =>
        simp only [parseRow, hc, he, hs, Except.ok.injEq] at h
        rw [← h]
        exact ⟨rfl, rfl⟩

theorem parseRows_ok_mem_right (parse : String → Option String) :
    ∀ (rs : List Row) (L : List Migration),
      parseRows parse rs = .ok L →
      ∀ mg ∈ L, ∃ r ∈ rs, parseRow parse r = .ok mg := by
  intro rs
  induction rs with
  | nil =>
    intro L h mg hmg
    simp only [parseRows, Except.ok.injEq] at h
    rw [← h] at hmg
    exact absurd hmg (by simp)
  | cons r rest ih =>
    intro L h mg hmg
    cases hp : parseRow parse r with
    | error e => simp [parseRows, hp] at h
    | ok m =>
      cases hrest : parseRows parse rest with
      | error e => simp [parseRows, hp, hrest] at h
      | ok ms =>
        simp only [parseRows, hp, hrest, Except.ok.injEq] at h
        rw [← h] at hmg
        rcases List.mem_cons.mp hmg with h1 | h1
        · exact ⟨r, List.mem_cons_self r rest, by rw [h1]; exact hp⟩
        · obtain ⟨r2, hr2, hp2⟩ := ih ms hrest mg h1
          exact ⟨r2, List.mem_cons_of_mem r hr2, hp2⟩

theorem parseRows_ok_mem_left (parse : String → Option String) :
    ∀ (rs : List Row) (L : List Migration),
      parseRows parse rs = .ok L →
      ∀ r ∈ rs, ∃ mg ∈ L, parseRow parse r = .ok mg := by
  intro rs
  induction rs with
  | nil =>
    intro L h r hr
    exact absurd hr (by simp)
  | cons r0 rest ih =>
    intro L h r hr
    cases hp : parseRow parse r0 with
    | error e => simp [parseRows, hp] at h
    | ok m =>
      cases hrest : parseRows parse rest with
      | error e => simp [parseRows, hp, hrest] at h
      | ok ms =>
        simp only [parseRows, hp, hrest, Except.ok.injEq] at h
        rcases List.mem_cons.mp hr with h1 | h1
        · refine ⟨m, ?_, by rw [h1]; exact hp⟩
          rw [← h]
          exact List.mem_cons_self m ms
        · obtain ⟨mg, hmg, hpm⟩ := ih ms hrest r h1
          refine ⟨mg, ?_, hpm⟩
          rw [← h]
          exact List.mem_cons_of_mem m hmg

theorem parseRows_error_of_mem (parse : String → Option String) :
    ∀ (rs : List Row) (r : Row), r ∈ rs →
      (∃ e, parseRow parse r = .error e) →
      ∃ e, parseRows parse rs = .error e := by
  intro rs
  induction rs with
  | nil =>
    intro r hr
    exact absurd hr (by simp)
  | cons r0 rest ih =>
    intro r hr he
    rcases List.mem_cons.mp hr with h1 | h1
    · obtain ⟨e, hpe⟩ := he
      rw [h1] at hpe
      exact ⟨e, by simp [parseRows, hpe]⟩
    · obtain ⟨e, hpe⟩ := ih r h1 he
      cases hp0 : parseRow parse r0 with
      | error e0 => exact ⟨e0, by simp [parseRows, hp0]⟩
      | ok m0 => exact ⟨e, by simp [parseRows, hp0, hpe]⟩

theorem mem_sortRows (rows : List Row) (r : Row) :
    r ∈ sortRows rows ↔ r ∈ rows :=
  (List.perm_insertionSort
    (fun a b => charListLe a.created_at.data b.created_at.data = true)
    rows).mem_iff

/-- Success of `execute_migration` appends exactly one tracking row —
`(m.id, m.name, m.sql, m.created_at, Some now)` — and certifies that no
prior row carried `m.id` (the INSERT would have violated the primary key
and failed). -/
theorem execute_migration_ok_table (f : Stmt → Option Error)
    (a : σ → String → σ) (now : String) (st : DbState σ) (m : Migration)
    (tr : List Stmt) (st' : DbState σ)
    (h : execute_migration f a now st m = (tr, .ok st')) :
    st'.table = st.table ++ [⟨m.id, m.name, m.sql, m.created_at, some now⟩] ∧
    ∀ r ∈ st.table, r.id ≠ m.id := by
  cases hd1 : dbExec f a st ⟨beginSql, []⟩ with
  | error e => simp [execute_migration, hd1] at h
  | ok p1 =>
  obtain ⟨st1, n1⟩ := p1
  cases hd2 : dbExec f a st1 ⟨m.sql, []⟩ with
  | error e => simp [execute_migration, hd1, hd2] at h
  | ok p2 =>
  obtain ⟨st2, n2⟩ := p2
  cases hd3 : dbExec f a st2 (insertStmt m now) with
  | error e => simp [execute_migration, hd1, hd2, hd3] at h
  | ok p3 =>
  obtain ⟨st3, n3⟩ := p3
  cases hd4 : dbExec f a st3 ⟨commitSql, []⟩ with
  | error e => simp [execute_migration, hd1, hd2, hd3, hd4] at h
  | ok p4 =>
  obtain ⟨st4, n4⟩ := p4
  simp only [execute_migration, hd1, hd2, hd3, hd4] at h
  injection h with h1 h2
  injection h2 with h2
  have e1 := dbExec_ok f a st _ _ hd1
  rw [applyStmt_begin] at e1
  injection e1 with e1
  injection e1 with e1a e1b
  have t2 : st2.table = st1.table := by
    have e2 := dbExec_ok f a st1 _ _ hd2
    exact applyStmt_nil_params_table a st1 st2 m.sql n2 e2
  have e3 := dbExec_ok f a st2 _ _ hd3
  rw [applyStmt_insert] at e3
  split at e3
  · exact absurd e3 (by simp)
  · rename_i hfresh
    injection e3 with e3
    injection e3 with e3a e3b
    have e4 := dbExec_ok f a st3 _ _ hd4
    rw [applyStmt_commit] at e4
    injection e4 with e4
    injection e4 with e4a e4b
    constructor
    · rw [← h2, ← e4a, ← e3a]
      simp [t2, ← e1a]
    · intro r hr hid
      apply hfresh
      rw [t2, ← e1a]
      exact List.any_eq_true.mpr ⟨r, hr, by simp [hid]⟩

/-! ## Claim C7 -/

/-- C7: after a successful `execute_migration(&m)`, a migration with id
`m.id` is in the `get_executed_migrations` result and absent from the
`get_pending_migrations` result — the tracking row is written with a
non-null `executed_at`. -/
theorem C7_executed_after_success (f : Stmt → Option Error)
    (a : σ → String → σ) (now : String) (st : DbState σ) (m : Migration)
    (tr : List Stmt) (st' : DbState σ) (parse : String → Option String)
    (E P : List Migration)
    (hexec : execute_migration f a now st m = (tr, .ok st'))
    (hE : get_executed_migrations parse st' = .ok E)
    (hP : get_pending_migrations parse st' = .ok P) :
    (∃ mg ∈ E, mg.id = m.id) ∧ ∀ mg ∈ P, mg.id ≠ m.id := by
  obtain ⟨htab, hfresh⟩ :=
    execute_migration_ok_table f a now st m tr st' hexec
  cases hg : get_migrations parse st' with
  | error e => simp [get_executed_migrations, hg] at hE
  | ok L =>
  have hEL : E = L.filter (fun mg => mg.executed_at.isSome) := by
    simp only [get_executed_migrations, hg, Except.ok.injEq] at hE
    exact hE.symm
  have hPL : P = L.filter (fun mg => mg.executed_at.isNone) := by
    simp only [get_pending_migrations, hg, Except.ok.injEq] at hP
    exact hP.symm
  have hrows : parseRows parse (sortRows st'.table) = .ok L := hg
  constructor
  · have hmem : (⟨m.id, m.name, m.sql, m.created_at, some now⟩ : Row) ∈
        sortRows st'.table := by
      rw [mem_sortRows, htab]
      simp
    obtain ⟨mg, hmgL, hpm⟩ :=
      parseRows_ok_mem_left parse (sortRows st'.table) L hrows _ hmem
    obtain ⟨hid, hsome⟩ := parseRow_ok_fields parse _ mg hpm
    refine ⟨mg, ?_, hid⟩
    rw [hEL]
    exact List.mem_filter.mpr ⟨hmgL, by rw [hsome]; rfl⟩
  · intro mg hmg
    rw [hPL] at hmg
    obtain ⟨hmgL, hnone⟩ := List.mem_filter.mp hmg
    obtain ⟨r, hrs, hpr⟩ :=
      parseRows_ok_mem_right parse (sortRows st'.table) L hrows mg hmgL
    obtain ⟨hid, hsome⟩ := parseRow_ok_fields parse r mg hpr
    rw [mem_sortRows, htab] at hrs
    rcases List.mem_append.mp hrs with hin | hnew
    · rw [hid]
      exact hfresh r hin
    · exfalso
      have : r = ⟨m.id, m.name, m.sql, m.created_at, some now⟩ := by
        simpa using hnew
      rw [this] at hsome
      rw [Option.isNone_iff_eq_none.mp hnone] at hsome
      simp at hsome

/-- Witness for C7: a fresh migration executed against an empty table; it
shows up executed and not pending. -/
theorem C7_executed_after_success_witness :
    execute_migration (fun _ => none) (fun (n : Nat) _ => n) "c2" ⟨[], 0⟩
        ⟨"i1", "n1", "CREATE TABLE t (x)", "c1", none⟩ =
      (migrationStmts ⟨"i1", "n1", "CREATE TABLE t (x)", "c1", none⟩ "c2",
       .ok ⟨[⟨"i1", "n1", "CREATE TABLE t (x)", "c1", some "c2"⟩], 0⟩) ∧
    get_executed_migrations (fun s => some s)
        (⟨[⟨"i1", "n1", "CREATE TABLE t (x)", "c1", some "c2"⟩], 0⟩ :
          DbState Nat) =
      .ok [⟨"i1", "n1", "CREATE TABLE t (x)", "c1", some "c2"⟩] ∧
    get_pending_migrations (fun s => some s)
        (⟨[⟨"i1", "n1", "CREATE TABLE t (x)", "c1", some "c2"⟩], 0⟩ :
          DbState Nat) = .ok [] ∧
    ((∃ mg ∈ [(⟨"i1", "n1", "CREATE TABLE t (x)", "c1", some "c2"⟩ :
        Migration)], mg.id =
        (⟨"i1", "n1", "CREATE TABLE t (x)", "c1", none⟩ : Migration).id) ∧
     ∀ mg ∈ ([] : List Migration), mg.id ≠
        (⟨"i1", "n1", "CREATE TABLE t (x)", "c1", none⟩ : Migration).id) :=
  ⟨by rfl, by rfl, by rfl,
   C7_executed_after_success (fun _ => none) (fun (n : Nat) _ => n) "c2"
     ⟨[], 0⟩ ⟨"i1", "n1", "CREATE TABLE t (x)", "c1", none⟩ _ _
     (fun s => some s) _ _ (by rfl) (by rfl) (by rfl)⟩

/-! ## Claim C8 -/

/-- C8: a tracking row whose `created_at`, or whose non-null
`executed_at`, fails timestamp parsing makes `get_migrations` fail as a
whole — no partial list, no skipping. -/
theorem C8_malformed_timestamp_hard_error (parse : String → Option String)
    (st : DbState σ) (r : Row) (hr : r ∈ st.table)
    (hbad : parse r.created_at = none ∨
      ∃ s, r.executed_at = some s ∧ parse s = none) :
    ∃ e, get_migrations parse st = .error e := by
  apply parseRows_error_of_mem parse (sortRows st.table) r
    ((mem_sortRows st.table r).mpr hr)
  rcases hbad with hb | ⟨s, hs, hps⟩
  · exact ⟨Error.DatabaseError "Invalid datetime format",
      by simp [parseRow, hb]⟩
  · cases hc : parse r.created_at with
    | none => exact ⟨Error.DatabaseError "Invalid datetime format",
        by simp [parseRow, hc]⟩
    | some c => exact ⟨Error.DatabaseError "Invalid datetime format",
        by simp [parseRow, hc, hs, hps]⟩

/-- Witness for C8: one row with an unparseable `created_at`; the whole
read errors. -/
theorem C8_malformed_timestamp_hard_error_witness :
    (⟨"a", "n", "s", "not-a-date", none⟩ : Row) ∈
      ([⟨"a", "n", "s", "not-a-date", none⟩] : List Row) ∧
    ((fun (_ : String) => (none : Option String))
        (⟨"a", "n", "s", "not-a-date", none⟩ : Row).created_at = none ∨
      ∃ s, (⟨"a", "n", "s", "not-a-date", none⟩ : Row).executed_at = some s ∧
        (fun (_ : String) => (none : Option String)) s = none) ∧
    ∃ e, get_migrations (fun _ => none)
        (⟨[⟨"a", "n", "s", "not-a-date", none⟩], 0⟩ : DbState Nat) =
      .error e :=
  ⟨List.mem_singleton.mpr rfl, Or.inl rfl,
   C8_malformed_timestamp_hard_error (fun _ => none)
     (⟨[⟨"a", "n", "s", "not-a-date", none⟩], 0⟩ : DbState Nat)
     ⟨"a", "n", "s", "not-a-date", none⟩ (List.mem_singleton.mpr rfl)
     (Or.inl rfl)⟩

/-! ## Helper lemmas for the SQL-building layer -/

theorem charCount_append (a b : List Char) :
    charCount (a ++ b) = charCount a + charCount b := by
  simp [charCount, List.filter_append]

theorem charCount_of_not_mem (l : List Char) (h : '?' ∉ l) :
    charCount l = 0 := by
  rw [charCount, List.length_eq_zero, List.filter_eq_nil_iff]
  intro a ha
  simp only [decide_eq_true_eq]
  intro hq
  exact h (hq ▸ ha)

theorem subChars_nil_params : ∀ l : List Char, subChars l [] = l := by
  intro l
  induction l with
  | nil => rfl
  | cons c cs ih => by_cases hc : c = '?' <;> simp [subChars, hc, ih]

theorem subChars_append : ∀ (l1 : List Char) (pa : List LibsqlValue),
    charCount l1 = pa.length → ∀ (l2 : List Char) (pb : List LibsqlValue),
    subChars (l1 ++ l2) (pa ++ pb) = subChars l1 pa ++ subChars l2 pb := by
  intro l1
  induction l1 with
  | nil =>
    intro pa h l2 pb
    have hpa : pa = [] := by
      have h0 : pa.length = 0 := by simpa [charCount] using h.symm
      exact List.length_eq_zero.mp h0
    subst hpa
    simp [subChars]
  | cons c cs ih =>
    intro pa h l2 pb
    by_cases hc : c = '?'
    · subst hc
      cases pa with
      | nil => simp [charCount, List.filter_cons] at h
      | cons p ps =>
        have hcs : charCount cs = ps.length := by
          simp only [charCount, List.filter_cons, decide_eq_true_eq,
            if_pos rfl, List.length_cons, List.length] at h ⊢
          omega
        simp only [List.cons_append, subChars, List.append_eq, if_true]
        rw [ih ps hcs l2 pb]
        simp [List.append_assoc]
    · have hcs : charCount cs = pa.length := by
        simpa [charCount, List.filter_cons, hc] using h
      simp only [List.cons_append, subChars, List.append_eq, if_neg hc]
      rw [ih pa hcs l2 pb]

theorem countPlaceholders_append (a b : String) :
    countPlaceholders (a ++ b) = countPlaceholders a + countPlaceholders b := by
  simp [countPlaceholders, String.data_append, charCount_append]

theorem substitute_nil (s : String) : substitute s [] = s := by
  unfold substitute
  rw [subChars_nil_params]

theorem substitute_append (a b : String) (pa pb : List LibsqlValue)
    (h : countPlaceholders a = pa.length) :
    substitute (a ++ b) (pa ++ pb) = substitute a pa ++ substitute b pb := by
  unfold substitute
  rw [String.data_append, subChars_append a.data pa h b.data pb]
  rfl

theorem substitute_lit_q (pre : String) (hpre : countPlaceholders pre = 0)
    (v : LibsqlValue) :
    substitute (pre ++ "?") [v] = pre ++ showValue v := by
  have h2 := substitute_append pre "?" [] [v] hpre
  simp only [List.nil_append] at h2
  rw [h2, substitute_nil]
  congr 1
  unfold substitute
  show String.mk (subChars ['?'] [v]) = showValue v
  simp [subChars, subChars_nil_params]

theorem countPlaceholders_placeholders :
    ∀ n, countPlaceholders (placeholders n) = n
  | 0 => rfl
  | 1 => rfl
  | n + 2 => by
    have ih := countPlaceholders_placeholders (n + 1)
    show countPlaceholders ("?, " ++ placeholders (n + 1)) = n + 2
    rw [countPlaceholders_append, ih,
      show countPlaceholders "?, " = 1 from rfl]
    omega

theorem substitute_placeholders :
    ∀ (v : LibsqlValue) (vs : List LibsqlValue),
      substitute (placeholders (v :: vs).length) (v :: vs) =
        inlineList (v :: vs)
  | v, [] => by
    show substitute "?" [v] = showValue v
    have h := substitute_lit_q "" (by rfl) v
    simpa using h
  | v, w :: rest => by
    have ih := substitute_placeholders w rest
    show substitute ("?, " ++ placeholders (w :: rest).length)
      (v :: (w :: rest)) = showValue v ++ ", " ++ inlineList (w :: rest)
    have hsplit : ("?, " : String) ++ placeholders (w :: rest).length =
        ("?" ++ ", ") ++ placeholders (w :: rest).length := by rfl
    rw [hsplit, String.append_assoc]
    have h2 := substitute_append "?" (", " ++ placeholders (w :: rest).length)
      [v] (w :: rest) (by rfl)
    rw [show ([v] ++ (w :: rest)) = v :: (w :: rest) from rfl] at h2
    rw [h2]
    have h3 := substitute_append ", " (placeholders (w :: rest).length)
      [] (w :: rest) (by rfl)
    simp only [List.nil_append] at h3
    rw [h3, substitute_nil, ih]
    have h4 : substitute "?" [v] = showValue v := by
      have h := substitute_lit_q "" (by rfl) v
      simpa using h
    rw [h4, String.append_assoc]

theorem leaf_one_param_count (col mid : String)
    (hc : countPlaceholders col = 0) (hm : countPlaceholders mid = 0) :
    countPlaceholders (col ++ (mid ++ "?")) = 1 := by
  rw [countPlaceholders_append, countPlaceholders_append, hc, hm]
  rfl

theorem leaf_one_param_sub (col mid : String)
    (hc : countPlaceholders col = 0) (hm : countPlaceholders mid = 0)
    (v : LibsqlValue) :
    substitute (col ++ (mid ++ "?")) [v] = col ++ mid ++ showValue v := by
  have h1 := substitute_append col (mid ++ "?") [] [v] hc
  simp only [List.nil_append] at h1
  rw [h1, substitute_nil, substitute_lit_q mid hm v, String.append_assoc]

/-- Placeholder/parameter alignment for every leaf fragment of the §4.1
table, under the trusted-identifier condition. -/
theorem renderLeaf_spec (f : Filter) (h : '?' ∉ f.column.data) :
    countPlaceholders (renderLeaf f).1 = (renderLeaf f).2.length ∧
    substitute (renderLeaf f).1 (renderLeaf f).2 = renderInlineLeaf f := by
  obtain ⟨col, cmp⟩ := f
  have hc : countPlaceholders col = 0 := charCount_of_not_mem col.data h
  cases cmp with
  | Eq v =>
    exact ⟨leaf_one_param_count col " = " hc (by rfl),
      leaf_one_param_sub col " = " hc (by rfl) v⟩
  | Ne v =>
    exact ⟨leaf_one_param_count col " != " hc (by rfl),
      leaf_one_param_sub col " != " hc (by rfl) v⟩
  | Gt v =>
    exact ⟨leaf_one_param_count col " > " hc (by rfl),
      leaf_one_param_sub col " > " hc (by rfl) v⟩
  | Gte v =>
    exact ⟨leaf_one_param_count col " >= " hc (by rfl),
      leaf_one_param_sub col " >= " hc (by rfl) v⟩
  | Lt v =>
    exact ⟨leaf_one_param_count col " < " hc (by rfl),
      leaf_one_param_sub col " < " hc (by rfl) v⟩
  | Lte v =>
    exact ⟨leaf_one_param_count col " <= " hc (by rfl),
      leaf_one_param_sub col " <= " hc (by rfl) v⟩
  | Like v =>
    exact ⟨leaf_one_param_count col " LIKE " hc (by rfl),
      leaf_one_param_sub col " LIKE " hc (by rfl) v⟩
  | IsNull =>
    refine ⟨?_, substitute_nil _⟩
    show countPlaceholders (col ++ " IS NULL") = 0
    rw [countPlaceholders_append, hc]
    rfl
  | IsNotNull =>
    refine ⟨?_, substitute_nil _⟩
    show countPlaceholders (col ++ " IS NOT NULL") = 0
    rw [countPlaceholders_append, hc]
    rfl
  | In vs =>
    cases vs with
    | nil => exact ⟨rfl, substitute_nil _⟩
    | cons v vs =>
      constructor
      · show countPlaceholders (col ++ " IN (" ++
          placeholders (v :: vs).length ++ ")") = (v :: vs).length
        rw [countPlaceholders_append, countPlaceholders_append,
          countPlaceholders_append, hc, countPlaceholders_placeholders,
          show countPlaceholders " IN (" = 0 from rfl,
          show countPlaceholders ")" = 0 from rfl]
        omega
      · show substitute (col ++ " IN (" ++
          placeholders (v :: vs).length ++ ")") (v :: vs) =
          col ++ " IN (" ++ inlineList (v :: vs) ++ ")"
        have hA : countPlaceholders (col ++ " IN (") = 0 := by
          rw [countPlaceholders_append, hc]
          rfl
        have hn : countPlaceholders (col ++ " IN (" ++
            placeholders (v :: vs).length) = (v :: vs).length := by
          rw [countPlaceholders_append, hA, countPlaceholders_placeholders]
          omega
        have h1 := substitute_append
          (col ++ " IN (" ++ placeholders (v :: vs).length) ")"
          (v :: vs) [] hn
        rw [List.append_nil] at h1
        rw [h1, substitute_nil]
        have h2 := substitute_append (col ++ " IN (")
          (placeholders (v :: vs).length) [] (v :: vs) hA
        rw [List.nil_append] at h2
        rw [h2, substitute_nil, substitute_placeholders]

/-- Wrapping a fragment in parentheses preserves the alignment facts. -/
theorem substitute_paren (s : String) (ps : List LibsqlValue) (q : String)
    (hcount : countPlaceholders s = ps.length) (hsub : substitute s ps = q) :
    countPlaceholders ("(" ++ s ++ ")") = ps.length ∧
    substitute ("(" ++ s ++ ")") ps = "(" ++ q ++ ")" := by
  constructor
  · rw [countPlaceholders_append, countPlaceholders_append,
      show countPlaceholders "(" = 0 from rfl,
      show countPlaceholders ")" = 0 from rfl, hcount]
    omega
  · have hCP : countPlaceholders ("(" ++ s) = ps.length := by
      rw [countPlaceholders_append, show countPlaceholders "(" = 0 from rfl,
        hcount]
      omega
    have h1 := substitute_append ("(" ++ s) ")" ps [] hCP
    rw [List.append_nil] at h1
    rw [h1, substitute_nil]
    have h2 := substitute_append "(" s [] ps (by rfl)
    rw [List.nil_append] at h2
    rw [h2, substitute_nil, hsub]

/-- Alignment for a connective-joined list of parenthesized child
fragments: child parameter lists concatenate in child order. -/
theorem joinFrags_spec (sep : String) (hsep : countPlaceholders sep = 0) :
    ∀ (rs : List (String × List LibsqlValue)) (qs : List String),
      List.Forall₂ (fun r q => countPlaceholders r.1 = r.2.length ∧
        substitute r.1 r.2 = q) rs qs →
      countPlaceholders (joinFrags sep (rs.map Prod.fst)) =
        ((rs.map Prod.snd).flatten).length ∧
      substitute (joinFrags sep (rs.map Prod.fst))
        ((rs.map Prod.snd).flatten) = joinFrags sep qs := by
  intro rs
  induction rs with
  | nil =>
    intro qs h
    cases h
    exact ⟨rfl, rfl⟩
  | cons r rest ih =>
    intro qs h
    cases h with
    | @cons _ q _ qs2 hr hrest =>
      cases rest with
      | nil =>
        cases hrest
        have hp := substitute_paren r.1 r.2 q hr.1 hr.2
        constructor
        · show countPlaceholders ("(" ++ r.1 ++ ")") =
            (([r.2] : List (List LibsqlValue)).flatten).length
          rw [hp.1]
          simp
        · show substitute ("(" ++ r.1 ++ ")")
            (([r.2] : List (List LibsqlValue)).flatten) = "(" ++ q ++ ")"
          rw [show (([r.2] : List (List LibsqlValue)).flatten) = r.2 by simp]
          exact hp.2
      | cons r2 rest2 =>
        cases hrest with
        | @cons _ q2 _ qs3 hr2 hrest2 =>
          have ihh := ih (q2 :: qs3) (List.Forall₂.cons hr2 hrest2)
          have hp := substitute_paren r.1 r.2 q hr.1 hr.2
          have hA : countPlaceholders ("(" ++ r.1 ++ ")" ++ sep) =
              r.2.length := by
            rw [countPlaceholders_append, hp.1, hsep]
            omega
          constructor
          · show countPlaceholders ("(" ++ r.1 ++ ")" ++ sep ++
              joinFrags sep ((r2 :: rest2).map Prod.fst)) =
              ((r.2 :: (r2 :: rest2).map Prod.snd).flatten).length
            rw [countPlaceholders_append, hA, ihh.1,
              List.flatten_cons, List.length_append]
          · show substitute ("(" ++ r.1 ++ ")" ++ sep ++
              joinFrags sep ((r2 :: rest2).map Prod.fst))
              ((r.2 :: (r2 :: rest2).map Prod.snd).flatten) =
              "(" ++ q ++ ")" ++ sep ++ joinFrags sep (q2 :: qs3)
            rw [List.flatten_cons]
            have h1 := substitute_append ("(" ++ r.1 ++ ")" ++ sep)
              (joinFrags sep ((r2 :: rest2).map Prod.fst)) r.2
              (((r2 :: rest2).map Prod.snd).flatten) hA
            rw [h1, ihh.2]
            congr 1
            have h2 := substitute_append ("(" ++ r.1 ++ ")") sep r.2 [] hp.1
            rw [List.append_nil] at h2
            rw [h2, substitute_nil, hp.2]

mutual

/-- Alignment for `render` on every tree with trusted identifiers: the
placeholder count equals the parameter-list length, and substituting the
parameters back into the fragment, left to right, reproduces the inline
rendering — each parameter sits exactly at its own placeholder. -/
theorem render_spec : ∀ (t : FilterOperator), columnsOk t = true →
    countPlaceholders (render t).1 = (render t).2.length ∧
    substitute (render t).1 (render t).2 = renderInline t
  | .Single f, h => by
    have hcol : '?' ∉ f.column.data := by
      simpa [columnsOk] using h
    simpa [render, renderInline] using renderLeaf_spec f hcol
  | .And [], _ => ⟨rfl, substitute_nil _⟩
  | .And (c :: cs), h => by
    have hl := renderList_spec (c :: cs) (by simpa [columnsOk] using h)
    have hj := joinFrags_spec " AND " (by rfl)
      (renderList (c :: cs)) (renderInlineList (c :: cs)) hl
    simpa [render, renderInline] using hj
  | .Or [], _ => ⟨rfl, substitute_nil _⟩
  | .Or (c :: cs), h => by
    have hl := renderList_spec (c :: cs) (by simpa [columnsOk] using h)
    have hj := joinFrags_spec " OR " (by rfl)
      (renderList (c :: cs)) (renderInlineList (c :: cs)) hl
    simpa [render, renderInline] using hj

/-- Alignment for every child of a composite node, paired with its inline
rendering. -/
theorem renderList_spec : ∀ (l : List FilterOperator),
    columnsOkList l = true →
    List.Forall₂ (fun r q => countPlaceholders r.1 = r.2.length ∧
      substitute r.1 r.2 = q) (renderList l) (renderInlineList l)
  | [], _ => List.Forall₂.nil
  | t :: ts, h => by
    have h1 : columnsOk t = true := by
      have := h
      simp only [columnsOkList, Bool.and_eq_true] at this
      exact this.1
    have h2 : columnsOkList ts = true := by
      have := h
      simp only [columnsOkList, Bool.and_eq_true] at this
      exact this.2
    exact List.Forall₂.cons (render_spec t h1) (renderList_spec ts h2)

end

/-! ## Claim C2 -/

/-- C2: for all FilterOperator trees (with trusted column identifiers, per
§4.1 these are never escaped and must not carry placeholder characters),
the count of `?` placeholders in the rendered fragment equals the length
of the returned parameter list, and the parameters correspond to the
placeholders in left-to-right depth-first order: substituting the
parameter list into the fragment placeholder-by-placeholder yields exactly
the inline rendering that shows each operand at its own position. -/
theorem C2_render_placeholder_alignment (t : FilterOperator)
    (h : columnsOk t = true) :
    countPlaceholders (render t).1 = (render t).2.length ∧
    substitute (render t).1 (render t).2 = renderInline t :=
  render_spec t h

/-- Witness for C2 on a nested And/Or tree with five operand values. -/
theorem C2_render_placeholder_alignment_witness :
    columnsOk (FilterOperator.And
      [FilterOperator.Single ⟨"age", FilterCmp.Gt (LibsqlValue.Integer 30)⟩,
       FilterOperator.Or
         [FilterOperator.Single
           ⟨"name", FilterCmp.Like (LibsqlValue.Text "%jo%")⟩,
          FilterOperator.Single
           ⟨"id", FilterCmp.In [LibsqlValue.Integer 1,
             LibsqlValue.Integer 2]⟩,
          FilterOperator.Single ⟨"note", FilterCmp.IsNull⟩]]) = true ∧
    (countPlaceholders (render (FilterOperator.And
      [FilterOperator.Single ⟨"age", FilterCmp.Gt (LibsqlValue.Integer 30)⟩,
       FilterOperator.Or
         [FilterOperator.Single
           ⟨"name", FilterCmp.Like (LibsqlValue.Text "%jo%")⟩,
          FilterOperator.Single
           ⟨"id", FilterCmp.In [LibsqlValue.Integer 1,
             LibsqlValue.Integer 2]⟩,
          FilterOperator.Single ⟨"note", FilterCmp.IsNull⟩]])).1 =
      (render (FilterOperator.And
      [FilterOperator.Single ⟨"age", FilterCmp.Gt (LibsqlValue.Integer 30)⟩,
       FilterOperator.Or
         [FilterOperator.Single
           ⟨"name", FilterCmp.Like (LibsqlValue.Text "%jo%")⟩,
          FilterOperator.Single
           ⟨"id", FilterCmp.In [LibsqlValue.Integer 1,
             LibsqlValue.Integer 2]⟩,
          FilterOperator.Single ⟨"note", FilterCmp.IsNull⟩]])).2.length ∧
    substitute (render (FilterOperator.And
      [FilterOperator.Single ⟨"age", FilterCmp.Gt (LibsqlValue.Integer 30)⟩,
       FilterOperator.Or
         [FilterOperator.Single
           ⟨"name", FilterCmp.Like (LibsqlValue.Text "%jo%")⟩,
          FilterOperator.Single
           ⟨"id", FilterCmp.In [LibsqlValue.Integer 1,
             LibsqlValue.Integer 2]⟩,
          FilterOperator.Single ⟨"note", FilterCmp.IsNull⟩]])).1
      (render (FilterOperator.And
      [FilterOperator.Single ⟨"age", FilterCmp.Gt (LibsqlValue.Integer 30)⟩,
       FilterOperator.Or
         [FilterOperator.Single
           ⟨"name", FilterCmp.Like (LibsqlValue.Text "%jo%")⟩,
          FilterOperator.Single
           ⟨"id", FilterCmp.In [LibsqlValue.Integer 1,
             LibsqlValue.Integer 2]⟩,
          FilterOperator.Single ⟨"note", FilterCmp.IsNull⟩]])).2 =
      renderInline (FilterOperator.And
      [FilterOperator.Single ⟨"age", FilterCmp.Gt (LibsqlValue.Integer 30)⟩,
       FilterOperator.Or
         [FilterOperator.Single
           ⟨"name", FilterCmp.Like (LibsqlValue.Text "%jo%")⟩,
          FilterOperator.Single
           ⟨"id", FilterCmp.In [LibsqlValue.Integer 1,
             LibsqlValue.Integer 2]⟩,
          FilterOperator.Single ⟨"note", FilterCmp.IsNull⟩]])) :=
  ⟨by rfl,
   C2_render_placeholder_alignment (FilterOperator.And
      [FilterOperator.Single ⟨"age", FilterCmp.Gt (LibsqlValue.Integer 30)⟩,
       FilterOperator.Or
         [FilterOperator.Single
           ⟨"name", FilterCmp.Like (LibsqlValue.Text "%jo%")⟩,
          FilterOperator.Single
           ⟨"id", FilterCmp.In [LibsqlValue.Integer 1,
             LibsqlValue.Integer 2]⟩,
          FilterOperator.Single ⟨"note", FilterCmp.IsNull⟩]]) (by rfl)⟩

/-! ## Claim C9 -/

/-- C9: the claim says `Database::new_connect` always terminates by
returning Ok or Err.  The native-build body (`src/database.rs`, the
`not(target_arch = "wasm32")` variant) instead panics unconditionally,
although the comment directly above it says `return an error`; evaluated
here at a concrete url and token. -/
theorem C9_new_connect_native_panics :
    new_connect BuildConfig.nativeLibsql (fun _ _ => .ok ())
        "libsql://db.turso.io" "token" =
      ConnectOutcome.panicked
        "Native database connections not supported in this build configuration. Use the libsql_default feature for native support." :=
  rfl

/-! ## Claim C10 -/

/-- C10: `MigrationBuilder::build` takes its `sql` from `up()` alone and
leaves `executed_at` as `None`; the `down()` SQL is discarded — two
builders differing only in their down SQL build identical migrations once
the random id and creation timestamp are fixed. -/
theorem C10_builder_discards_down_sql (b : MigrationBuilder)
    (d1 d2 u id now : String) :
    (b.down d1).build id now = (b.down d2).build id now ∧
    ((b.up u).build id now).sql = u ∧
    (b.build id now).executed_at = none :=
  ⟨rfl, rfl, rfl⟩

end LibsqlOrm
